import Mathlib

/-!
Verification development for the sentiment-survey backend
(completion detection, analysis orchestration, report lifecycle,
reset operations and tenant access control).

The relational store is embedded as a `DB` structure holding the four
row lists this core reads and writes: `employees` (table `employees`),
`responses` (table `Responses_Sentiment`), `indivReports`
(table `responses_langchain_sentiment`) and `companyReports`
(table `company_reports_sentiment`).  Each route handler is translated
into a pure function from a `DB` (the state the handler reads) to its
HTTP-level outcome and, for mutating handlers, the successor `DB`.
Failures of individual SQL statements or of the external analysis
service are made explicit as failure-injection parameters, so that the
error paths of the handlers are ordinary executable branches.
Endpoints are modelled on the already-resolved numeric company id; the
name-to-id resolution branch shared by the admin routes does not touch
the state and is outside every claim.
-/

/-- One row of the `employees` table, restricted to the columns this
core reads: primary key `employeesID`, nullable `company_id`, `role`
and the `COALESCE(is_filled, 0)` survey flag (the SQL coalesce makes a
missing value behave as 0, so a plain `Bool` is faithful). -/
structure Employee where
  employeesID : String
  companyId   : Option Nat
  role        : String
  isFilled    : Bool
deriving Repr, DecidableEq

/-- One row of `Responses_Sentiment`: the per-(employee, question)
answer written by the submission endpoint. -/
structure ResponseRow where
  employeesID    : String
  formId         : String
  formQuestionId : Nat
  answerText     : Option String
  answerChoice   : Option String
deriving Repr, DecidableEq

/-- One row of `responses_langchain_sentiment` (the per-employee
generated report); only the owner and the creation time matter here. -/
structure IndivReportRow where
  employeesID : String
  createdAt   : Nat
deriving Repr, DecidableEq

/-- One row of `company_reports_sentiment`; the HR fetch additionally
filters on its `is_filled` column, so it is kept. -/
structure CompanyReportRow where
  companyId : Nat
  createdAt : Nat
  isFilled  : Bool
deriving Repr, DecidableEq

/-- The slice of the relational store this core touches. -/
structure DB where
  employees      : List Employee
  responses      : List ResponseRow
  indivReports   : List IndivReportRow
  companyReports : List CompanyReportRow
deriving Repr, DecidableEq

/-- `SELECT ... FROM employees WHERE employeesID = ? LIMIT 1`. -/
def findEmployee (db : DB) (id : String) : Option Employee :=
  db.employees.find? (fun e => e.employeesID == id)

/-- `SELECT ... FROM employees WHERE company_id = ? AND role != 'HR'`.
A SQL comparison with NULL never holds, so a NULL bind parameter
(`Option.none`) selects nothing. -/
def companyEmployees (db : DB) (oc : Option Nat) : List Employee :=
  match oc with
  | none => []
  | some c => db.employees.filter (fun e => e.companyId == some c && e.role != "HR")

/-- `total` as computed at every completion call site: the row count of
the non-HR employee query. -/
def surveyTotal (db : DB) (c : Nat) : Nat :=
  (companyEmployees db (some c)).length

/-- `filled` as computed at every completion call site:
`rows.filter(r => r.is_filled).length`. -/
def surveyFilled (db : DB) (c : Nat) : Nat :=
  ((companyEmployees db (some c)).filter (·.isFilled)).length

/-- Modelled from the spec wording of the Completion Detector, for the
refinement comparison: `total` = count of non-HR employees of the
company, `filled` = count of those with `filled = true`, and
`complete = total > 0 AND filled == total`. -/
def specIsComplete (db : DB) (c : Nat) : Bool :=
  let eligible := db.employees.filter (fun e => decide (e.companyId = some c ∧ e.role ≠ "HR"))
  decide (0 < eligible.length) && (eligible.filter (fun e => e.isFilled)).length == eligible.length

/-- The completion test of the auto-trigger after a submission
(lines 563-600 of the main server file): resolve the company of the
submitting employee, count the non-HR rows and their filled subset, and
fire exactly when `totalEmployees > 0 && filledEmployees === totalEmployees`. -/
def autoTriggerFires (db : DB) (empId : String) : Bool :=
  match findEmployee db empId with
  | none => false
  | some e =>
    let rows := companyEmployees db e.companyId
    decide (0 < rows.length) && ((rows.filter (·.isFilled)).length == rows.length)

/-- `ORDER BY created_at DESC LIMIT 1`: latest row by creation time. -/
def latestBy {α : Type} (key : α → Nat) : List α → Option α
  | [] => none
  | x :: xs =>
    match latestBy key xs with
    | none => some x
    | some y => if key x < key y then some y else some x

/-- Latest `company_reports_sentiment` row of a company (admin fetch). -/
def latestCompanyReport (db : DB) (c : Nat) : Option CompanyReportRow :=
  latestBy (·.createdAt) (db.companyReports.filter (fun r => r.companyId == c))

/-- Latest company report row with `COALESCE(is_filled,0) = 1`
(the extra filter of the HR fetch). -/
def latestFilledCompanyReport (db : DB) (c : Nat) : Option CompanyReportRow :=
  latestBy (·.createdAt) (db.companyReports.filter (fun r => r.companyId == c && r.isFilled))

/-- Latest `responses_langchain_sentiment` row of one employee. -/
def latestIndivReport (db : DB) (empId : String) : Option IndivReportRow :=
  latestBy (·.createdAt) (db.indivReports.filter (fun r => r.employeesID == empId))

/-- Outcomes of `GET /api/admin/company/:company/report`. -/
inductive AdminReportResult where
  | notReady
  | noReport
  | report (r : CompanyReportRow)
deriving Repr, DecidableEq

/-- `GET /api/admin/company/:company/report` on the resolved company id
(main server file lines 200-230): reject with 409 `Not ready` when
`filled !== total`, otherwise serve the latest report row or 404.
Note the gate has no `total > 0` test. -/
def adminCompanyReport (db : DB) (c : Nat) : AdminReportResult :=
  if surveyFilled db c ≠ surveyTotal db c then .notReady
  else
    match latestCompanyReport db c with
    | none => .noReport
    | some r => .report r

/-- Outcomes of `GET /api/company/report` (the HR fetch). -/
inductive HrReportResult where
  | hrNotFound
  | noEmployees
  | notAllSubmitted (total filled : Nat)
  | notReadyNoRow
  | report (r : CompanyReportRow)
deriving Repr, DecidableEq

/-- `GET /api/company/report` (main server file lines 969-1011):
resolve the HR company, 404 when `total === 0`, 409 when
`filled !== total`, otherwise serve the latest filled report row or
404 `Company report not ready`. -/
def hrCompanyReport (db : DB) (hrId : String) : HrReportResult :=
  match findEmployee db hrId with
  | none => .hrNotFound
  | some hr =>
    match hr.companyId with
    | none => .noEmployees
    | some c =>
      if surveyTotal db c = 0 then .noEmployees
      else if surveyFilled db c ≠ surveyTotal db c then
        .notAllSubmitted (surveyTotal db c) (surveyFilled db c)
      else
        match latestFilledCompanyReport db c with
        | none => .notReadyNoRow
        | some r => .report r

/-- One entry of the `answers[]` payload of the submission request. -/
structure AnswerIn where
  formQuestionId : Nat
  answerText     : Option String
  answerChoice   : Option String
deriving Repr, DecidableEq

/-- The `a.answer_text || null` coercion of the insert parameters: an
empty string is falsy in the source language and becomes NULL. -/
def jsOrNull (v : Option String) : Option String :=
  match v with
  | none => none
  | some s => if s = "" then none else some s

/-- `INSERT INTO Responses_Sentiment (employeesID, form_id,
form_question_id, answer_text, answer_choice) VALUES (?,?,?,?,?)`. -/
def insertResponseRow (db : DB) (emp form : String) (a : AnswerIn) : DB :=
  { db with responses := db.responses ++
      [{ employeesID := emp, formId := form, formQuestionId := a.formQuestionId,
         answerText := jsOrNull a.answerText, answerChoice := jsOrNull a.answerChoice }] }

/-- The sequential insert loop of `POST /api/sentiment/response`
(lines 506-543): rows are written one by one; the first failing insert
(injected through `failAt`) aborts the loop with its index, leaving the
rows already written in place. -/
def insertRows (emp form : String) (failAt : Nat → Bool) :
    List AnswerIn → Nat → DB → Option Nat × DB
  | [], _, db => (none, db)
  | a :: rest, i, db =>
    if failAt i then (some i, db)
    else insertRows emp form failAt rest (i + 1) (insertResponseRow db emp form a)

/-- `UPDATE employees SET is_filled = 1 WHERE employeesID = ?`. -/
def setFilled (db : DB) (empId : String) : DB :=
  { db with employees := db.employees.map (fun e =>
      if e.employeesID == empId then { e with isFilled := true } else e) }

/-- HTTP-level outcomes of the submission endpoint. -/
inductive SubmitResult where
  | invalidInput
  | rowError (i : Nat)
  | ok
deriving Repr, DecidableEq

/-- `POST /api/sentiment/response` (lines 471-610): validate that the
employee identifier and form id are truthy (the answers field is already
a list in this typed model, so `Array.isArray` always passes); run the
row-by-row insert loop, answering 500 with the failing row index on the
first insert error; mark the employee filled, tolerating a failure of
that update (`updateFails`); finally evaluate the auto-trigger
completion check on the resulting state.  Returns the response, the
successor state, and whether the company analysis was fired. -/
def postSentimentResponse (db : DB) (emp form : String) (answers : List AnswerIn)
    (failAt : Nat → Bool) (updateFails : Bool) : SubmitResult × DB × Bool :=
  if emp = "" ∨ form = "" then (.invalidInput, db, false)
  else
    match insertRows emp form failAt answers 0 db with
    | (some i, db1) => (.rowError i, db1, false)
    | (none, db1) =>
      let db2 := if updateFails then db1 else setFilled db1 emp
      (.ok, db2, autoTriggerFires db2 emp)

/-- Observable actions of `triggerCompanyAnalysis` and its callers:
readiness queries and outbound calls to the external analysis service. -/
inductive AnalysisEvent where
  | completenessCheck (c : Nat)
  | indivCall (empId : String)
  | skipEmpty (empId : String)
  | empFailure (empId : String)
  | companyCall (c : Nat)
deriving Repr, DecidableEq

/-- `SELECT employeesID FROM employees WHERE company_id = ? AND
role != 'HR' AND COALESCE(is_filled, 0) = 1` (phase-1 worklist). -/
def eligibleEmployees (db : DB) (c : Nat) : List String :=
  (db.employees.filter (fun e =>
    e.companyId == some c && e.role != "HR" && e.isFilled)).map (·.employeesID)

/-- `SELECT ... FROM Responses_Sentiment rs ... WHERE rs.employeesID = ?`. -/
def empAnswerRows (db : DB) (empId : String) : List ResponseRow :=
  db.responses.filter (fun r => r.employeesID == empId)

/-- One iteration of the phase-1 loop (lines 629-699): an employee with
no persisted answers is skipped with a warning; otherwise the external
`/analyze` call is made, and a failure (injected through `indivFails`)
is caught, logged, and does not leave the loop. -/
def phase1Step (db : DB) (indivFails : String → Bool) (empId : String) : AnalysisEvent :=
  if (empAnswerRows db empId).isEmpty then .skipEmpty empId
  else if indivFails empId then .empFailure empId
  else .indivCall empId

/-- `triggerCompanyAnalysis(companyId)` (lines 613-734) as its trace of
observable actions: the phase-1 loop over every eligible employee,
followed unconditionally by the external `/analyze-company` call.  The
function performs no completeness query of its own; `db` is the store
state its phase-1 reads observe. -/
def triggerCompanyAnalysis (db : DB) (c : Nat) (indivFails : String → Bool) :
    List AnalysisEvent :=
  ((eligibleEmployees db c).map (phase1Step db indivFails)) ++ [.companyCall c]

/-- The auto-trigger tail of the submission endpoint (lines 563-600) as
an event trace: resolve the company, run the readiness count query, and
fire the full analysis only when every non-HR employee is filled. -/
def autoTriggerEvents (db : DB) (empId : String) (indivFails : String → Bool) :
    List AnalysisEvent :=
  match findEmployee db empId with
  | none => []
  | some e =>
    match e.companyId with
    | none => []
    | some c =>
      if autoTriggerFires db empId then
        .completenessCheck c :: triggerCompanyAnalysis db c indivFails
      else [.completenessCheck c]

/-- HTTP-level outcomes of `POST /api/company/analyze`. -/
inductive AnalyzeResult where
  | hrNotFound
  | noEmployees409
  | notAllSubmitted409 (filled total : Nat)
  | analysisOk
  | analysisFailed
deriving Repr, DecidableEq

/-- `POST /api/company/analyze` (lines 1014-1103): resolve the HR
company, reject with 409 when `total === 0` or `filled !== total`, and
otherwise run `triggerCompanyAnalysis`; a phase-2 failure (injected
through `companyFails`) surfaces as an error response.  Returns the
response together with the trace of readiness checks and external
calls. -/
def analyzeCompanyEndpoint (db : DB) (hrId : String) (indivFails : String → Bool)
    (companyFails : Bool) : AnalyzeResult × List AnalysisEvent :=
  match findEmployee db hrId with
  | none => (.hrNotFound, [])
  | some hr =>
    match hr.companyId with
    | none => (.noEmployees409, [])
    | some c =>
      if surveyTotal db c = 0 then (.noEmployees409, [])
      else if surveyFilled db c ≠ surveyTotal db c then
        (.notAllSubmitted409 (surveyFilled db c) (surveyTotal db c), [])
      else
        ((if companyFails then .analysisFailed else .analysisOk),
         .completenessCheck c :: triggerCompanyAnalysis db c indivFails)

/-- The `.trim()` of the status route parameters, embedded executably:
drop whitespace from both ends of the character list. -/
def jsTrim (s : String) : String :=
  ⟨((s.data.dropWhile Char.isWhitespace).reverse.dropWhile Char.isWhitespace).reverse⟩

/-- The identity the authentication middleware attaches to the request
(`req.employee`, decoded from the token): id and role only. -/
structure Caller where
  employeesID : String
  role        : String
deriving Repr, DecidableEq

/-- Outcomes of `GET /api/employees/:employeesID/status`. -/
inductive StatusResult where
  | badRequest
  | denied
  | notFound
  | status (isFilled : Bool)
deriving Repr, DecidableEq

/-- `GET /api/employees/:employeesID/status` (lines 908-932): after
trimming, allow the request when the caller is the target themself, or
has role HR, or role Admin — there is no company comparison — then
read the `is_filled` flag of the target row. -/
def employeeStatusEndpoint (db : DB) (requester : Caller) (target : String) : StatusResult :=
  let targetId := jsTrim target
  if targetId = "" then .badRequest
  else
    let requesterId := jsTrim requester.employeesID
    let requesterRole := jsTrim requester.role
    if requesterId ≠ targetId ∧ requesterRole ≠ "HR" ∧ requesterRole ≠ "Admin" then .denied
    else
      match findEmployee db targetId with
      | none => .notFound
      | some e => .status e.isFilled

/-- Outcomes of `GET /api/reports/sentiment/:employeeId`. -/
inductive IndivReportResult where
  | hrNotFound
  | empNotFound
  | denied
  | missingButFilled
  | missingNotFilled
  | report (r : IndivReportRow)
deriving Repr, DecidableEq

/-- `GET /api/reports/sentiment/:employeeId` (lines 789-888): resolve
the HR caller row and the target row (each 404 when absent), reject
with 403 when their `company_id` values differ (a strict comparison, so
two NULLs compare equal), then serve the latest individual report, or
report the two no-report sub-states from the `is_filled` flag. -/
def sentimentReportEndpoint (db : DB) (hrId empId : String) : IndivReportResult :=
  match findEmployee db hrId with
  | none => .hrNotFound
  | some hr =>
    match findEmployee db empId with
    | none => .empNotFound
    | some emp =>
      if emp.companyId ≠ hr.companyId then .denied
      else
        match latestIndivReport db empId with
        | some r => .report r
        | none => if emp.isFilled then .missingButFilled else .missingNotFilled

/-- The statements inside the company-reset transaction, as failure
injection points. -/
inductive ResetStep where
  | delResponses
  | delIndivReports
  | delCompanyReport
  | clearFilled
deriving Repr, DecidableEq

/-- The employee set selected by `POST /company/:company/reset`
(admin route lines 697-718): non-HR employees of the company, narrowed
to the filled ones when `onlyFilled` is set. -/
def resetSelected (db : DB) (c : Nat) (onlyFilled : Bool) : List String :=
  (db.employees.filter (fun e =>
    e.companyId == some c && e.role != "HR" && (!onlyFilled || e.isFilled))).map (·.employeesID)

/-- The four DML statements of the reset transaction applied to the
store: delete the response and individual-report rows of the selected
employees, delete every company report row of the company, and clear
`is_filled` on the selected employees. -/
def applyCompanyReset (db : DB) (c : Nat) (ids : List String) : DB :=
  { employees := db.employees.map (fun e =>
      if ids.contains e.employeesID then { e with isFilled := false } else e),
    responses := db.responses.filter (fun r => !ids.contains r.employeesID),
    indivReports := db.indivReports.filter (fun r => !ids.contains r.employeesID),
    companyReports := db.companyReports.filter (fun r => r.companyId != c) }

/-- HTTP-level outcomes of the company reset. -/
inductive ResetResult where
  | emptyOk
  | resetOk (n : Nat)
  | serverError
deriving Repr, DecidableEq

/-- `POST /company/:company/reset` (admin route lines 675-763) on the
resolved company id: inside one transaction, select the employee set;
an empty set rolls back and still answers success with zero counts; any
failing statement (injected through `failsAt`) reaches the catch block,
which rolls the whole transaction back, leaving the store untouched;
otherwise all four statements commit together. -/
def companyResetEndpoint (db : DB) (c : Nat) (onlyFilled : Bool)
    (failsAt : ResetStep → Bool) : ResetResult × DB :=
  let ids := resetSelected db c onlyFilled
  if ids.isEmpty then (.emptyOk, db)
  else if failsAt .delResponses || failsAt .delIndivReports ||
          failsAt .delCompanyReport || failsAt .clearFilled then (.serverError, db)
  else (.resetOk ids.length, applyCompanyReset db c ids)

/-- `DELETE /api/hr/employee/:employeesID/responses` (main server file
lines 339-379), the single-employee reset: delete the response rows and
the individual-report rows of the employee, clear `is_filled`, then
look the employee up again for their `company_id` and, when that value
is truthy (non-NULL and non-zero), delete every company report row of
that company. -/
def resetOneEmployee (db : DB) (empId : String) : DB :=
  let db1 : DB :=
    { db with
      responses := db.responses.filter (fun r => !(r.employeesID == empId)),
      indivReports := db.indivReports.filter (fun r => !(r.employeesID == empId)),
      employees := db.employees.map (fun e =>
        if e.employeesID == empId then { e with isFilled := false } else e) }
  match findEmployee db1 empId with
  | none => db1
  | some e =>
    match e.companyId with
    | none => db1
    | some c =>
      if c ≠ 0 then
        { db1 with companyReports := db1.companyReports.filter (fun r => !(r.companyId == c)) }
      else db1

/-! Concrete store states used by the counterexamples and witnesses. -/

/-- A company (id 1) whose only employee has role HR, with a company
report row left over from an earlier cycle. -/
def dbZeroNonHr : DB :=
  ⟨[⟨"H1", some 1, "HR", false⟩], [], [], [⟨1, 5, true⟩]⟩

/-- A company (id 2) whose only employee has role HR, with a stale
company report row from a prior cycle. -/
def dbStaleReport : DB :=
  ⟨[⟨"H3", some 2, "HR", false⟩], [], [], [⟨2, 7, true⟩]⟩

/-- An HR user of company 1 next to an employee of company 2. -/
def dbTwoCompanies : DB :=
  ⟨[⟨"HRA", some 1, "HR", false⟩, ⟨"B2", some 2, "Employee", true⟩], [], [], []⟩

/-- A company (id 1) whose single non-HR employee has not filled the
survey, as the store looks right after a reset. -/
def dbAfterReset : DB :=
  ⟨[⟨"E5", some 1, "Employee", false⟩], [], [], []⟩

/-- A fresh store with one unfilled employee of company 1 and no
responses. -/
def dbOneEmployee : DB :=
  ⟨[⟨"E1", some 1, "Employee", false⟩], [], [], []⟩

/-- First answer of the two-row submission used against claim C2. -/
def answerOne : AnswerIn := ⟨1, some "yes", none⟩

/-- Second answer of the two-row submission used against claim C2. -/
def answerTwo : AnswerIn := ⟨2, none, some "A"⟩

/-- A company (id 1) whose single non-HR employee has filled the
survey and has one persisted answer row; the HR user sits alongside. -/
def dbCompleteCompany : DB :=
  ⟨[⟨"E1", some 1, "Employee", true⟩, ⟨"H1", some 1, "HR", false⟩],
   [⟨"E1", "F1", 1, some "ok", none⟩], [], []⟩

/-- A company (id 3) with one unfilled non-HR employee and a report row
left over from a prior cycle. -/
def dbIncompleteWithReport : DB :=
  ⟨[⟨"E1", some 3, "Employee", false⟩, ⟨"H1", some 3, "HR", false⟩],
   [], [], [⟨3, 9, true⟩]⟩

/-! Helper lemmas shared by the claim theorems. -/

/-- Filtering out a member that fails the predicate strictly shrinks
the list. -/
theorem length_filter_lt_of_mem {α : Type} (p : α → Bool) (l : List α) (x : α)
    (hx : x ∈ l) (hpx : p x = false) : (l.filter p).length < l.length := by
  induction l with
  | nil => cases hx
  | cons a t ih =>
    rcases List.mem_cons.mp hx with h | h
    · subst h
      simp only [List.filter_cons, hpx, Bool.false_eq_true, if_false, List.length_cons]
      exact Nat.lt_succ_of_le (List.length_filter_le p t)
    · cases hpa : p a with
      | true =>
        simp only [List.filter_cons, hpa, if_true, List.length_cons]
        exact Nat.succ_lt_succ (ih h)
      | false =>
        simp only [List.filter_cons, hpa, Bool.false_eq_true, if_false, List.length_cons]
        exact Nat.lt_succ_of_le (Nat.le_of_lt (ih h))

/-- The eligibility predicate written from the spec coincides pointwise
with the SQL row filter of the source. -/
theorem specPred_eq (c : Nat) (e : Employee) :
    (decide (e.companyId = some c ∧ e.role ≠ "HR"))
      = (e.companyId == some c && e.role != "HR") := by
  by_cases h1 : e.companyId = some c <;> by_cases h2 : e.role = "HR" <;>
    simp [h1, h2, bne]

/-- The spec-side eligible list is the source-side non-HR employee
query. -/
theorem specElig_eq (db : DB) (c : Nat) :
    db.employees.filter (fun e => decide (e.companyId = some c ∧ e.role ≠ "HR"))
      = companyEmployees db (some c) := by
  unfold companyEmployees
  exact List.filter_congr (fun a _ => specPred_eq c a)

/-- The spec-side completion predicate in terms of the shared count
helpers. -/
theorem specIsComplete_counts (db : DB) (c : Nat) :
    specIsComplete db c
      = (decide (0 < surveyTotal db c) && surveyFilled db c == surveyTotal db c) := by
  simp only [specIsComplete, specElig_eq, surveyTotal, surveyFilled]

/-- The auto-trigger test equals the spec-side completion predicate for
the company of the resolved employee. -/
theorem autoTriggerFires_eq_spec (db : DB) (empId : String) (e : Employee) (c : Nat)
    (h1 : findEmployee db empId = some e) (h2 : e.companyId = some c) :
    autoTriggerFires db empId = specIsComplete db c := by
  simp only [autoTriggerFires, h1, h2, specIsComplete_counts, surveyTotal, surveyFilled]

/-- C1, counterexample: at the admin report-gating call site the
completion test is only `filled === total`; a company whose only
employee has role HR (zero non-HR employees) passes that gate and is
served its report row, although the spec-side completion predicate is
false there.  This refutes the claim that every call site treats a
company with zero non-HR employees as not complete. -/
theorem c1_counterexample :
    specIsComplete dbZeroNonHr 1 = false
  ∧ adminCompanyReport dbZeroNonHr 1 = .report ⟨1, 5, true⟩ := by decide

/-- C1 (amended): the auto-trigger after a submission and the manual
analyze gate compute completion exactly as the spec-side predicate
(`total > 0` and `filled == total` over the non-HR employees), and the
HR report gate answers `noEmployees` when `total = 0` and the 409
not-all-submitted rejection when `filled` differs from `total`; the
admin report gate, however, only tests `filled == total`, so a company
with zero non-HR employees is not rejected as unready there. -/
theorem c1_completion_gates_amended (db : DB) (c : Nat) (empId hrId : String)
    (e hr : Employee) (f : String → Bool) (cf : Bool)
    (h1 : findEmployee db empId = some e) (h2 : e.companyId = some c)
    (h3 : findEmployee db hrId = some hr) (h4 : hr.companyId = some c) :
    autoTriggerFires db empId = specIsComplete db c
  ∧ ((analyzeCompanyEndpoint db hrId f cf).2 ≠ [] ↔ specIsComplete db c = true)
  ∧ (surveyTotal db c ≠ 0 → surveyFilled db c ≠ surveyTotal db c →
       adminCompanyReport db c = .notReady)
  ∧ (surveyTotal db c = 0 → adminCompanyReport db c ≠ .notReady)
  ∧ (surveyTotal db c = 0 → hrCompanyReport db hrId = .noEmployees)
  ∧ (surveyTotal db c ≠ 0 → surveyFilled db c ≠ surveyTotal db c →
       hrCompanyReport db hrId = .notAllSubmitted (surveyTotal db c) (surveyFilled db c)) := by
  refine ⟨autoTriggerFires_eq_spec db empId e c h1 h2, ?_, ?_, ?_, ?_, ?_⟩
  · by_cases ht : surveyTotal db c = 0
    · simp [analyzeCompanyEndpoint, h3, h4, ht, specIsComplete_counts]
    · by_cases hf : surveyFilled db c = surveyTotal db c
      · simp [analyzeCompanyEndpoint, h3, h4, ht, hf, specIsComplete_counts,
              Nat.pos_of_ne_zero ht]
      · simp [analyzeCompanyEndpoint, h3, h4, ht, hf, specIsComplete_counts]
  · intro _ hf
    simp [adminCompanyReport, hf]
  · intro ht
    have hle : surveyFilled db c ≤ surveyTotal db c := List.length_filter_le _ _
    have hf : surveyFilled db c = 0 := Nat.le_zero.mp (ht ▸ hle)
    simp only [adminCompanyReport, hf, ht, ne_eq, not_true_eq_false, if_false]
    rcases latestCompanyReport db c with _ | r <;> simp
  · intro ht
    simp [hrCompanyReport, h3, h4, ht]
  · intro ht hf
    simp [hrCompanyReport, h3, h4, ht, hf]

/-- C1 witness: on a concrete complete company, the auto-trigger test
coincides with the spec-side completion predicate. -/
theorem c1_completion_gates_amended_witness :
    autoTriggerFires dbCompleteCompany "E1" = specIsComplete dbCompleteCompany 1 :=
  (c1_completion_gates_amended dbCompleteCompany 1 "E1" "H1"
    ⟨"E1", some 1, "Employee", true⟩ ⟨"H1", some 1, "HR", false⟩
    (fun _ => false) false (by decide) (by decide) (by decide) (by decide)).1

/-- C2, code bug: the submission insert loop aborts on the first
failing row without removing the rows already written.  On a two-answer
submission whose second insert fails, the endpoint answers failure, yet
the first answer row of the batch remains persisted in the store that
started empty — a partial subset, contradicting the all-or-nothing
requirement the spec states (and whose violation its design note about
the row-by-row loop already flags). -/
theorem c2_partial_rows_persist :
    (postSentimentResponse dbOneEmployee "E1" "F1" [answerOne, answerTwo]
        (fun i => i == 1) false).1 = .rowError 1
  ∧ (postSentimentResponse dbOneEmployee "E1" "F1" [answerOne, answerTwo]
        (fun i => i == 1) false).2.1.responses = [⟨"E1", "F1", 1, some "yes", none⟩]
  ∧ dbOneEmployee.responses = [] := by decide

/-- C3, counterexample: for a company with zero non-HR employees the
admin report endpoint serves the stale report row from a prior cycle
although the completion predicate is currently false, and the HR
endpoint answers `noEmployees` (a not-found, not a not-ready). -/
theorem c3_counterexample :
    specIsComplete dbStaleReport 2 = false
  ∧ adminCompanyReport dbStaleReport 2 = .report ⟨2, 7, true⟩
  ∧ hrCompanyReport dbStaleReport "H3" = .noEmployees := by decide

/-- C3 (amended): for every store and company with at least one non-HR
employee, whenever `filled` differs from `total` both company-report
endpoints reject with their not-ready responses — in particular even
when a company report row from a prior cycle is present, since the
statement quantifies over every store; readiness is recomputed from the
current store on every call.  (With zero non-HR employees the admin
endpoint instead passes its gate and the HR endpoint answers
`noEmployees`.) -/
theorem c3_not_ready_amended (db : DB) (c : Nat) (hrId : String) (hr : Employee)
    (h1 : findEmployee db hrId = some hr) (h2 : hr.companyId = some c)
    (h3 : surveyTotal db c ≠ 0) (h4 : surveyFilled db c ≠ surveyTotal db c) :
    adminCompanyReport db c = .notReady
  ∧ hrCompanyReport db hrId = .notAllSubmitted (surveyTotal db c) (surveyFilled db c) := by
  constructor
  · simp [adminCompanyReport, h4]
  · simp [hrCompanyReport, h1, h2, h3, h4]

/-- C3 witness: a concrete incomplete company holding a stale report
row is rejected as not ready by both endpoints. -/
theorem c3_not_ready_amended_witness :
    adminCompanyReport dbIncompleteWithReport 3 = .notReady
  ∧ hrCompanyReport dbIncompleteWithReport "H1"
      = .notAllSubmitted (surveyTotal dbIncompleteWithReport 3)
          (surveyFilled dbIncompleteWithReport 3) :=
  c3_not_ready_amended dbIncompleteWithReport 3 "H1" ⟨"H1", some 3, "HR", false⟩
    (by decide) (by decide) (by decide) (by decide)

/-- C4, counterexample: the status endpoint grants any caller whose
token carries role HR access to the survey status of any employee, with
no company comparison: an HR user of company 1 reads the status of an
employee of company 2 and receives the flag instead of Forbidden. -/
theorem c4_counterexample :
    employeeStatusEndpoint dbTwoCompanies ⟨"HRA", "HR"⟩ "B2" = .status true
  ∧ (findEmployee dbTwoCompanies "HRA").map Employee.companyId = some (some 1)
  ∧ (findEmployee dbTwoCompanies "B2").map Employee.companyId = some (some 2) := by decide

/-- C4 (amended): the per-employee sentiment report endpoint does
reject an HR caller whose company differs from the target employee with
Forbidden, for every store and regardless of whether a report row
exists; the generic status endpoint, however, never answers Forbidden
to a caller whose token role is HR, whatever company the target belongs
to — its guard tests only identity and role. -/
theorem c4_access_guard_amended (db : DB) (hrId empId : String) (hr emp : Employee)
    (caller : Caller) (target : String)
    (h1 : findEmployee db hrId = some hr) (h2 : findEmployee db empId = some emp)
    (h3 : hr.companyId ≠ emp.companyId) (h4 : caller.role = "HR") :
    sentimentReportEndpoint db hrId empId = .denied
  ∧ employeeStatusEndpoint db caller target ≠ .denied := by
  constructor
  · simp [sentimentReportEndpoint, h1, h2, Ne.symm h3]
  · have hrole : jsTrim caller.role = "HR" := by rw [h4]; decide
    by_cases hbr : jsTrim target = ""
    · simp [employeeStatusEndpoint, hbr]
    · simp only [employeeStatusEndpoint, hbr, if_false, hrole, ne_eq,
        not_true_eq_false, and_false, false_and, if_neg hbr]
      rcases findEmployee db (jsTrim target) with _ | e <;> simp

/-- C4 witness: the concrete cross-company pair is denied on the report
endpoint, while the status endpoint does not deny an HR caller. -/
theorem c4_access_guard_amended_witness :
    sentimentReportEndpoint dbTwoCompanies "HRA" "B2" = .denied
  ∧ employeeStatusEndpoint dbTwoCompanies ⟨"X", "HR"⟩ "B2" ≠ .denied :=
  c4_access_guard_amended dbTwoCompanies "HRA" "B2"
    ⟨"HRA", some 1, "HR", false⟩ ⟨"B2", some 2, "Employee", true⟩
    ⟨"X", "HR"⟩ "B2" (by decide) (by decide) (by decide) (by decide)

/-- C5, counterexample: `triggerCompanyAnalysis` performs no
completeness query of its own; on a store in which the company is not
complete (as after a reset racing with the orchestration), its trace is
only the company-level external call — phase 2 is raised although the
completion predicate is currently false and no check happened before
it.  This refutes the claim that completeness is re-checked right
before the company-level call. -/
theorem c5_counterexample :
    triggerCompanyAnalysis dbAfterReset 1 (fun _ => false) = [.companyCall 1]
  ∧ specIsComplete dbAfterReset 1 = false := by decide

/-- C5 (amended): the company-level call is always the final action of
`triggerCompanyAnalysis` and no completeness check occurs anywhere
inside it; completeness is checked exactly once, before phase 1: the
manual analyze endpoint emits a passing check (equivalent to the
spec-side predicate) as its first action and then runs the whole
two-phase orchestration without re-checking, and the auto-trigger path
does the same. -/
theorem c5_phase2_check_amended (db : DB) (c : Nat) (hrId empId : String)
    (f : String → Bool) (cf : Bool) :
    (triggerCompanyAnalysis db c f).getLast? = some (.companyCall c)
  ∧ (∀ ev ∈ triggerCompanyAnalysis db c f, ∀ c2, ev ≠ .completenessCheck c2)
  ∧ ((analyzeCompanyEndpoint db hrId f cf).2 = [] ∨
      ∃ c2, (analyzeCompanyEndpoint db hrId f cf).2
              = .completenessCheck c2 :: triggerCompanyAnalysis db c2 f
            ∧ specIsComplete db c2 = true)
  ∧ (autoTriggerEvents db empId f = [] ∨
      ∃ c2, autoTriggerEvents db empId f = [.completenessCheck c2] ∨
            (autoTriggerEvents db empId f
               = .completenessCheck c2 :: triggerCompanyAnalysis db c2 f
             ∧ specIsComplete db c2 = true)) := by
  refine ⟨List.getLast?_concat _, ?_, ?_, ?_⟩
  · intro ev hev c2
    rcases List.mem_append.mp hev with h | h
    · rcases List.mem_map.mp h with ⟨emp, _, rfl⟩
      unfold phase1Step
      split
      · simp
      · split <;> simp
    · rcases List.mem_singleton.mp h with rfl
      simp
  · rcases h1 : findEmployee db hrId with _ | hr
    · left; simp [analyzeCompanyEndpoint, h1]
    · rcases h2 : hr.companyId with _ | c2
      · left; simp [analyzeCompanyEndpoint, h1, h2]
      · by_cases ht : surveyTotal db c2 = 0
        · left; simp [analyzeCompanyEndpoint, h1, h2, ht]
        · by_cases hf : surveyFilled db c2 = surveyTotal db c2
          · right
            exact ⟨c2, by simp [analyzeCompanyEndpoint, h1, h2, ht, hf,
              specIsComplete_counts, Nat.pos_of_ne_zero ht]⟩
          · left; simp [analyzeCompanyEndpoint, h1, h2, ht, hf]
  · rcases h1 : findEmployee db empId with _ | e
    · left; simp [autoTriggerEvents, h1]
    · rcases h2 : e.companyId with _ | c2
      · left; simp [autoTriggerEvents, h1, h2]
      · right
        refine ⟨c2, ?_⟩
        by_cases hfire : autoTriggerFires db empId = true
        · right
          constructor
          · simp [autoTriggerEvents, h1, h2, hfire]
          · rw [← autoTriggerFires_eq_spec db empId e c2 h1 h2]; exact hfire
        · left
          simp [autoTriggerEvents, h1, h2, hfire]

/-- C5 witness: on a concrete complete company the orchestration trace
ends with the company-level call. -/
theorem c5_phase2_check_amended_witness :
    (triggerCompanyAnalysis dbCompleteCompany 1 (fun _ => false)).getLast?
      = some (.companyCall 1) :=
  (c5_phase2_check_amended dbCompleteCompany 1 "H1" "E1" (fun _ => false) false).1

/-- C6: the company reset is all-or-nothing and its committed effect is
exactly the four DML statements: the successor store is either the
original (empty selection, or any failing statement, which rolls the
transaction back) or the fully reset store; a failure of any statement
leaves the store untouched; a clean run over a nonempty selection
commits; and in the reset store the response rows and individual-report
rows of the selected employees are gone (all others kept), every
company report row of the company is gone (other companies kept), and
every selected employee has a cleared flag. -/
theorem c6_company_reset_atomic (db : DB) (c : Nat) (onlyFilled : Bool)
    (failsAt : ResetStep → Bool) :
    ((companyResetEndpoint db c onlyFilled failsAt).2 = db ∨
     (companyResetEndpoint db c onlyFilled failsAt).2
       = applyCompanyReset db c (resetSelected db c onlyFilled))
  ∧ ((∃ s, failsAt s = true) → (companyResetEndpoint db c onlyFilled failsAt).2 = db)
  ∧ ((∀ s, failsAt s = false) → resetSelected db c onlyFilled ≠ [] →
       companyResetEndpoint db c onlyFilled failsAt
         = (.resetOk (resetSelected db c onlyFilled).length,
            applyCompanyReset db c (resetSelected db c onlyFilled)))
  ∧ (∀ r, r ∈ (applyCompanyReset db c (resetSelected db c onlyFilled)).responses ↔
       r ∈ db.responses ∧ (resetSelected db c onlyFilled).contains r.employeesID = false)
  ∧ (∀ r, r ∈ (applyCompanyReset db c (resetSelected db c onlyFilled)).indivReports ↔
       r ∈ db.indivReports ∧ (resetSelected db c onlyFilled).contains r.employeesID = false)
  ∧ (∀ r, r ∈ (applyCompanyReset db c (resetSelected db c onlyFilled)).companyReports ↔
       r ∈ db.companyReports ∧ r.companyId ≠ c)
  ∧ (∀ e, e ∈ (applyCompanyReset db c (resetSelected db c onlyFilled)).employees →
       (resetSelected db c onlyFilled).contains e.employeesID = true → e.isFilled = false) := by
  refine ⟨?_, ?_, ?_, ?_, ?_, ?_, ?_⟩
  · simp only [companyResetEndpoint]
    split
    · left; rfl
    · split
      · left; rfl
      · right; rfl
  · rintro ⟨s, hs⟩
    simp only [companyResetEndpoint]
    split
    · rfl
    · have hor : (failsAt .delResponses || failsAt .delIndivReports ||
          failsAt .delCompanyReport || failsAt .clearFilled) = true := by
        cases s <;> simp [hs]
      rw [if_pos hor]
  · intro hok hne
    have hemp : (resetSelected db c onlyFilled).isEmpty = false := by
      rcases hsel : resetSelected db c onlyFilled with _ | ⟨a, t⟩
      · exact absurd hsel hne
      · rfl
    simp [companyResetEndpoint, hemp, hok]
  · intro r
    simp [applyCompanyReset, List.mem_filter]
  · intro r
    simp [applyCompanyReset, List.mem_filter]
  · intro r
    simp [applyCompanyReset, List.mem_filter, bne]
  · intro e he hc
    rcases List.mem_map.mp he with ⟨e0, _, rfl⟩
    by_cases h : (resetSelected db c onlyFilled).contains e0.employeesID = true
    · rw [if_pos h]
    · rw [if_neg h] at hc ⊢
      exact absurd hc h

/-- C6 witness: a clean run on a concrete company commits the full
reset. -/
theorem c6_company_reset_atomic_witness :
    companyResetEndpoint dbCompleteCompany 1 false (fun _ => false)
      = (.resetOk (resetSelected dbCompleteCompany 1 false).length,
         applyCompanyReset dbCompleteCompany 1 (resetSelected dbCompleteCompany 1 false)) :=
  (c6_company_reset_atomic dbCompleteCompany 1 false (fun _ => false)).2.2.1
    (fun _ => rfl) (by decide)

/-- Clearing the flag of the matching employees commutes with looking
the employee up by id: the update touches no key column. -/
theorem find_map_setUnfilled (l : List Employee) (empId : String) :
    (l.map (fun e => if e.employeesID == empId then { e with isFilled := false } else e)).find?
        (fun e => e.employeesID == empId)
      = (l.find? (fun e => e.employeesID == empId)).map
          (fun e => { e with isFilled := false }) := by
  induction l with
  | nil => rfl
  | cons a t ih =>
    by_cases h : (a.employeesID == empId) = true
    · have hA : ((({ a with isFilled := false } : Employee)).employeesID == empId) = true := h
      rw [List.map_cons, if_pos h]
      simp only [List.find?_cons]
      rw [hA]
      rfl
    · have hf : (a.employeesID == empId) = false := by simpa using h
      have hfA : ((({ a with isFilled := false } : Employee)).employeesID == empId) = false := hf
      rw [List.map_cons, if_neg h]
      simp only [List.find?_cons]
      rw [hf]
      exact ih

/-- The shape of the store after the single-employee reset, when the
employee exists and has a truthy company id. -/
theorem resetOne_eq (db : DB) (empId : String) (e : Employee) (c : Nat)
    (h1 : findEmployee db empId = some e) (h2 : e.companyId = some c) (h3 : c ≠ 0) :
    resetOneEmployee db empId =
      { employees := db.employees.map (fun x =>
          if x.employeesID == empId then { x with isFilled := false } else x),
        responses := db.responses.filter (fun r => !(r.employeesID == empId)),
        indivReports := db.indivReports.filter (fun r => !(r.employeesID == empId)),
        companyReports := db.companyReports.filter (fun r => !(r.companyId == c)) } := by
  have hfind :
      findEmployee
        { db with
          responses := db.responses.filter (fun r => !(r.employeesID == empId)),
          indivReports := db.indivReports.filter (fun r => !(r.employeesID == empId)),
          employees := db.employees.map (fun x =>
            if x.employeesID == empId then { x with isFilled := false } else x) } empId
      = some { e with isFilled := false } := by
    simp only [findEmployee] at h1 ⊢
    rw [find_map_setUnfilled, h1]
    rfl
  simp only [resetOneEmployee, hfind, h2, if_pos h3]

/-- C7: the single-employee reset removes every response row and every
individual-report row of that employee, clears the filled flag on every
row carrying their id, and removes every company report row of their
company, so that the admin company-report fetch immediately afterwards
answers not-ready (the reset employee is a non-HR member counted in
`total` but no longer in `filled`). -/
theorem c7_reset_one_effects (db : DB) (empId : String) (e : Employee) (c : Nat)
    (h1 : findEmployee db empId = some e) (h2 : e.companyId = some c)
    (h3 : c ≠ 0) (h4 : e.role ≠ "HR") :
    (∀ r ∈ (resetOneEmployee db empId).responses, r.employeesID ≠ empId)
  ∧ (∀ r ∈ (resetOneEmployee db empId).indivReports, r.employeesID ≠ empId)
  ∧ (∀ e2 ∈ (resetOneEmployee db empId).employees,
       e2.employeesID = empId → e2.isFilled = false)
  ∧ (∀ r ∈ (resetOneEmployee db empId).companyReports, r.companyId ≠ c)
  ∧ adminCompanyReport (resetOneEmployee db empId) c = .notReady := by
  rw [resetOne_eq db empId e c h1 h2 h3]
  have h1L : db.employees.find? (fun x => x.employeesID == empId) = some e := h1
  have hmem : e ∈ db.employees := List.mem_of_find?_eq_some h1L
  have hpe := List.find?_some h1L
  refine ⟨?_, ?_, ?_, ?_, ?_⟩
  · intro r hr
    have := (List.mem_filter.mp hr).2
    simpa using this
  · intro r hr
    have := (List.mem_filter.mp hr).2
    simpa using this
  · intro e2 he2 heq
    rcases List.mem_map.mp he2 with ⟨x, _, rfl⟩
    by_cases hx : (x.employeesID == empId) = true
    · rw [if_pos hx]
    · rw [if_neg hx] at heq ⊢
      exact absurd (by simp [heq]) hx
  · intro r hr
    have := (List.mem_filter.mp hr).2
    simpa using this
  · set db2 : DB :=
      { employees := db.employees.map (fun x =>
          if x.employeesID == empId then { x with isFilled := false } else x),
        responses := db.responses.filter (fun r => !(r.employeesID == empId)),
        indivReports := db.indivReports.filter (fun r => !(r.employeesID == empId)),
        companyReports := db.companyReports.filter (fun r => !(r.companyId == c)) } with hdb2
    have he2 : ({ e with isFilled := false } : Employee) ∈ db2.employees := by
      rw [hdb2]
      exact List.mem_map.mpr ⟨e, hmem, by rw [if_pos hpe]⟩
    have helig : ({ e with isFilled := false } : Employee) ∈ companyEmployees db2 (some c) := by
      unfold companyEmployees
      refine List.mem_filter.mpr ⟨he2, ?_⟩
      have hc : (({ e with isFilled := false } : Employee).companyId == some c) = true := by
        simp [h2]
      have hr : (({ e with isFilled := false } : Employee).role != "HR") = true := by
        simpa [bne] using h4
      simp [hc, hr]
    have hlt : surveyFilled db2 c < surveyTotal db2 c := by
      unfold surveyFilled surveyTotal
      exact length_filter_lt_of_mem _ _ _ helig rfl
    have hne : surveyFilled db2 c ≠ surveyTotal db2 c := Nat.ne_of_lt hlt
    simp [adminCompanyReport, hne]

/-- C7 witness: resetting the lone employee of the concrete complete
company leaves no trace of them and makes the company report fetch
answer not-ready. -/
theorem c7_reset_one_effects_witness :
    (∀ r ∈ (resetOneEmployee dbCompleteCompany "E1").responses, r.employeesID ≠ "E1")
  ∧ (∀ r ∈ (resetOneEmployee dbCompleteCompany "E1").indivReports, r.employeesID ≠ "E1")
  ∧ (∀ e2 ∈ (resetOneEmployee dbCompleteCompany "E1").employees,
       e2.employeesID = "E1" → e2.isFilled = false)
  ∧ (∀ r ∈ (resetOneEmployee dbCompleteCompany "E1").companyReports, r.companyId ≠ 1)
  ∧ adminCompanyReport (resetOneEmployee dbCompleteCompany "E1") 1 = .notReady :=
  c7_reset_one_effects dbCompleteCompany "E1" ⟨"E1", some 1, "Employee", true⟩ 1
    (by decide) (by decide) (by decide) (by decide)

/-- C8: for every store, company and pattern of per-employee external
failures, the phase-1 loop reaches every eligible employee — each
contributes its own step to the trace, whatever happens to the others —
a failing employee is recorded as a caught failure rather than aborting
the phase, and the trace always ends with the company-level call, which
therefore runs after phase 1 has been attempted for all eligible
employees. -/
theorem c8_phase1_independent (db : DB) (c : Nat) (f : String → Bool) (empId : String)
    (h : empId ∈ eligibleEmployees db c) :
    phase1Step db f empId ∈ triggerCompanyAnalysis db c f
  ∧ (triggerCompanyAnalysis db c f).getLast? = some (.companyCall c)
  ∧ (f empId = true → (empAnswerRows db empId).isEmpty = false →
       .empFailure empId ∈ triggerCompanyAnalysis db c f) := by
  have hmem : phase1Step db f empId ∈ triggerCompanyAnalysis db c f :=
    List.mem_append.mpr (Or.inl (List.mem_map.mpr ⟨empId, h, rfl⟩))
  refine ⟨hmem, List.getLast?_concat _, ?_⟩
  intro hf hne
  have hstep : phase1Step db f empId = .empFailure empId := by
    unfold phase1Step
    rw [if_neg (by simp [hne]), if_pos hf]
  rw [← hstep]
  exact hmem

/-- C8 witness: in the concrete complete company, an injected failure
for the lone eligible employee is recorded in the trace. -/
theorem c8_phase1_independent_witness :
    AnalysisEvent.empFailure "E1"
      ∈ triggerCompanyAnalysis dbCompleteCompany 1 (fun s => s == "E1") :=
  (c8_phase1_independent dbCompleteCompany 1 (fun s => s == "E1") "E1"
    (by decide)).2.2 (by decide) (by decide)

/-- C9: a submission whose answers field is the empty list succeeds for
any truthy employee identifier and form id: no validation error is
raised, the response table is left exactly as it was (zero inserted
rows, whatever the insert failure pattern, since the loop never runs),
and the filled flag is still set on every employee row matching the
identifier — so an existing employee becomes `filled = true` with no
persisted answers. -/
theorem c9_empty_answers_ok (db : DB) (emp form : String) (failAt : Nat → Bool)
    (h1 : emp ≠ "") (h2 : form ≠ "") :
    (postSentimentResponse db emp form [] failAt false).1 = .ok
  ∧ (postSentimentResponse db emp form [] failAt false).2.1.responses = db.responses
  ∧ (postSentimentResponse db emp form [] failAt false).2.1.employees
      = db.employees.map (fun e =>
          if e.employeesID == emp then { e with isFilled := true } else e) := by
  have hv : ¬(emp = "" ∨ form = "") := by
    rintro (hx | hx)
    · exact h1 hx
    · exact h2 hx
  simp [postSentimentResponse, hv, insertRows, setFilled]

/-- C9 witness: on the concrete store, the unfilled employee E1 ends up
flagged as filled although the store holds no answer row of theirs. -/
theorem c9_empty_answers_ok_witness :
    (postSentimentResponse dbOneEmployee "E1" "F1" [] (fun _ => true) false).1 = .ok
  ∧ (postSentimentResponse dbOneEmployee "E1" "F1" [] (fun _ => true) false).2.1.responses
      = dbOneEmployee.responses
  ∧ (postSentimentResponse dbOneEmployee "E1" "F1" [] (fun _ => true) false).2.1.employees
      = dbOneEmployee.employees.map (fun e =>
          if e.employeesID == "E1" then { e with isFilled := true } else e) :=
  c9_empty_answers_ok dbOneEmployee "E1" "F1" (fun _ => true) (by decide) (by decide)

/-- C10: when `onlyFilled` is set and no non-HR employee of the company
has `filled = true` (in particular when the company has no non-HR
employees at all), the selected set is empty, so the reset endpoint
rolls its transaction back and answers the zero-reset success response
while returning the store unchanged — any existing company report row
survives. -/
theorem c10_only_filled_noop (db : DB) (c : Nat) (failsAt : ResetStep → Bool)
    (h : ∀ e ∈ db.employees, e.companyId = some c → e.role ≠ "HR" → e.isFilled = false) :
    companyResetEndpoint db c true failsAt = (.emptyOk, db) := by
  have hsel : resetSelected db c true = [] := by
    unfold resetSelected
    rw [List.map_eq_nil_iff]
    rw [List.filter_eq_nil_iff]
    intro a ha
    by_cases hc : a.companyId = some c
    · by_cases hr : a.role = "HR"
      · simp [hr]
      · simp [hc, hr, h a ha hc hr]
    · simp [hc]
  simp [companyResetEndpoint, hsel]

/-- C10 witness: on a concrete company with one unfilled employee and a
leftover report row, the only-filled reset changes nothing and the
report row survives. -/
theorem c10_only_filled_noop_witness :
    companyResetEndpoint dbIncompleteWithReport 3 true (fun _ => false)
      = (.emptyOk, dbIncompleteWithReport) :=
  c10_only_filled_noop dbIncompleteWithReport 3 (fun _ => false) (by decide)
